import Mathlib

/-!
Shallow embedding of the PDF form-field extraction pipeline of
`va_forms_scraper.py` (class `VAFormsScraper`): the coordinator
`extract_pdf_form_fields` (lines 344-400), the three structured methods
`extract_pdf_form_fields_pypdf2` (402-436), `extract_pdf_form_fields_mupdf`
(438-475), `extract_pdf_form_fields_pdfform` (477-496), and the heuristic
fallback `parse_pdf_text_for_fields` (498-544).

Python strings are modelled as `String` (for field names and type tags) and
as `List Char` (for the extracted page text that the fallback scans); regular
expression matching of the fixed patterns `LIT.*?:`, `LIT1.*?LIT2.*?:`,
the glyph alternation and `Yes.*?No` is modelled by structurally recursive
scanners with the usual semantics of `.` (any character except a newline)
and of non-overlapping left-to-right `findall`.
-/

namespace VAForms

/-- A field descriptor as built by the scraper: the dict
`{"name": ..., "type": ..., "required": ...}`; the optional `label` key is
only ever added on the HTML path (line 209), never by the PDF methods. -/
structure Field where
  name : String
  type : String
  required : Bool
  label : Option String := none
deriving DecidableEq

/-- One entry of the document's form dictionary (`/AcroForm` → `/Fields`),
restricted to the attributes read at lines 414-417: `/T` (name), `/FT`
(field type), `/Ff` (flag bits); each may be absent. -/
structure PdfFieldEntry where
  T : Option String
  FT : Option String
  Ff : Option Nat
deriving DecidableEq

/-- The widget types distinguished by the PyMuPDF type mapping
(lines 454-462); `other` stands for any widget-type code outside the
mapping, for which `dict.get` falls back to `"text"`. -/
inductive WidgetType where
  | text
  | checkbox
  | radiobutton
  | listbox
  | combobox
  | signature
  | button
  | other
deriving DecidableEq

/-- A widget annotation as read by `extract_pdf_form_fields_mupdf`
(lines 448-451): `field_name` (None and the empty string are falsy in
`widget.field_name or ...`), `field_type`, `field_flags`. -/
structure Widget where
  field_name : Option String
  field_type : WidgetType
  field_flags : Nat
deriving DecidableEq

/-- The observable content of one downloaded PDF, together with one
failure flag per underlying reader: a raised reader exception is caught by
the per-method `except` handler (or, for pdfplumber, by the outer handler
at line 381) with the fields collected so far — which is none, since each
reader is opened before any field is read. -/
structure PdfDoc where
  acroFields : Option (List PdfFieldEntry)
  pages : List (List Widget)
  pdfformNames : List String
  text : List Char
  pypdf2Fails : Bool
  mupdfFails : Bool
  pdfformFails : Bool
  plumberFails : Bool
deriving DecidableEq

/-- The fixed PyPDF2 type table (lines 420-425) with its `.get(_, "text")`
default (line 429). -/
def pypdf2TypeMapping : String → String
  | "/Tx" => "text"
  | "/Ch" => "select"
  | "/Btn" => "checkbox"
  | "/Sig" => "signature"
  | _ => "text"

/-- One descriptor built from a form-dictionary entry (lines 414-431):
name defaults to `"unknown"`, type defaults to `"/Tx"`, and
`field_required = "/Ff" in field_obj and field_obj["/Ff"] & 2`. -/
def pypdf2Field (e : PdfFieldEntry) : Field :=
  { name := e.T.getD "unknown"
    type := pypdf2TypeMapping (e.FT.getD "/Tx")
    required :=
      match e.Ff with
      | none => false
      | some ff => ff &&& 2 != 0 }

/-- Method 1, `extract_pdf_form_fields_pypdf2` (lines 402-436): walk the
`/AcroForm` `/Fields` entries; any reader exception is caught at line 433
and the fields collected so far (none) are returned. -/
def extract_pdf_form_fields_pypdf2 (doc : PdfDoc) : List Field :=
  if doc.pypdf2Fails then []
  else
    match doc.acroFields with
    | none => []
    | some entries => entries.map pypdf2Field

/-- The fixed PyMuPDF type table (lines 454-462) with its `.get(_, "text")`
default (line 466). -/
def mupdfTypeMapping : WidgetType → String
  | .text => "text"
  | .checkbox => "checkbox"
  | .radiobutton => "radio"
  | .listbox => "select"
  | .combobox => "select"
  | .signature => "signature"
  | .button => "button"
  | .other => "text"

/-- One descriptor built from a widget (lines 448-468); `idx` is
`len(fields)` at append time, i.e. the number of widgets already
processed across all pages. -/
def mupdfField (idx : Nat) (w : Widget) : Field :=
  { name :=
      match w.field_name with
      | none => "field_" ++ toString idx
      | some n => if n = "" then "field_" ++ toString idx else n
    type := mupdfTypeMapping w.field_type
    required := w.field_flags &&& 2 != 0 }

/-- The per-widget loop of method 2, carrying the running `len(fields)`. -/
def mupdfWidgetFields : Nat → List Widget → List Field
  | _, [] => []
  | idx, w :: ws => mupdfField idx w :: mupdfWidgetFields (idx + 1) ws

/-- Method 2, `extract_pdf_form_fields_mupdf` (lines 438-475): enumerate
the widget annotations of every page in order; a reader exception is
caught at line 472 with no fields collected. -/
def extract_pdf_form_fields_mupdf (doc : PdfDoc) : List Field :=
  if doc.mupdfFails then []
  else mupdfWidgetFields 0 doc.pages.flatten

/-- Method 3, `extract_pdf_form_fields_pdfform` (lines 477-496): every
field name reported by the optional pdfform library becomes a `text`
descriptor with `required := false`; exceptions are caught at line 493. -/
def extract_pdf_form_fields_pdfform (doc : PdfDoc) : List Field :=
  if doc.pdfformFails then []
  else doc.pdfformNames.map fun n => { name := n, type := "text", required := false }

/-! ### The heuristic text fallback, `parse_pdf_text_for_fields` -/

/-- Scanner for the tail `.*?:` of a pattern: is there a `':'` at or after
the current position, before any newline?  (`.` does not match `'\n'`.) -/
def scanColon : List Char → Bool
  | [] => false
  | c :: rest => if c = ':' then true else if c = '\n' then false else scanColon rest

/-- Scanner for `LIT.*?:` anchored to the current line: is there an
occurrence of `lit` at or after the current position, not beyond the next
newline, followed (before a newline) by a `':'`? -/
def scanLitColon (lit : List Char) : List Char → Bool
  | [] => false
  | c :: rest =>
    (lit.isPrefixOf (c :: rest) && scanColon (List.drop lit.length (c :: rest)))
    || (!(c = '\n') && scanLitColon lit rest)

/-- `re.search` of `LIT.*?:` over the whole text: some occurrence of `lit`
anywhere, followed by a `':'` with no intervening newline. -/
def searchLitColon (lit : List Char) : List Char → Bool
  | [] => false
  | c :: rest =>
    (lit.isPrefixOf (c :: rest) && scanColon (List.drop lit.length (c :: rest)))
    || searchLitColon lit rest

/-- `re.search` of `LIT1.*?LIT2.*?:`: some occurrence of `lit1` anywhere,
then `lit2` and a `':'` further on in the same line. -/
def searchLit2Colon (lit1 lit2 : List Char) : List Char → Bool
  | [] => false
  | c :: rest =>
    (lit1.isPrefixOf (c :: rest) && scanLitColon lit2 (List.drop lit1.length (c :: rest)))
    || searchLit2Colon lit1 lit2 rest

/-- Shape of the twelve fixed patterns of `field_patterns` (lines 504-517):
either one literal before `.*?:` or two literals (`Veteran.*?ID.*?:`,
`Service.*?Number.*?:`). -/
inductive Pat where
  | one (lit : List Char)
  | two (lit1 lit2 : List Char)
deriving DecidableEq

def patMatch : Pat → List Char → Bool
  | .one lit, s => searchLitColon lit s
  | .two l1 l2, s => searchLit2Colon l1 l2 s

/-- One row of the `field_patterns` table: pattern, name, type, required. -/
structure PatternRow where
  pat : Pat
  name : String
  type : String
  required : Bool
deriving DecidableEq

/-- The fixed `field_patterns` table (lines 504-517); the literals are
lowercase because the search runs over `text.lower()` (with a redundant
`re.IGNORECASE`). -/
def fieldPatterns : List PatternRow :=
  [ ⟨.one "social security number".data, "social_security_number", "text", true⟩,
    ⟨.one "first name".data, "first_name", "text", true⟩,
    ⟨.one "last name".data, "last_name", "text", true⟩,
    ⟨.one "middle initial".data, "middle_initial", "text", false⟩,
    ⟨.one "date of birth".data, "date_of_birth", "date", true⟩,
    ⟨.one "address".data, "address", "text", true⟩,
    ⟨.one "phone".data, "phone", "tel", false⟩,
    ⟨.one "email".data, "email", "email", false⟩,
    ⟨.one "signature".data, "signature", "text", true⟩,
    ⟨.one "date".data, "date", "date", false⟩,
    ⟨.two "veteran".data "id".data, "veteran_id", "text", true⟩,
    ⟨.two "service".data "number".data, "service_number", "text", true⟩ ]

/-- `text.lower()`, on the ASCII range the patterns use. -/
def lowerStr (s : List Char) : List Char := s.map Char.toLower

/-- The descriptor a table row emits (lines 523-527). -/
def rowField (r : PatternRow) : Field :=
  { name := r.name, type := r.type, required := r.required }

/-- The label-phrase loop (lines 521-527): for each table row whose
pattern matches the lowered text, one descriptor, in table order. -/
def patternFields (text : List Char) : List Field :=
  (fieldPatterns.filter fun r => patMatch r.pat (lowerStr text)).map rowField

/-- Number of `re.findall` matches of the glyph alternation `☐|□|\[ \]`
over the original text: non-overlapping, left to right. -/
def countGlyphMatches : List Char → Nat
  | [] => 0
  | '[' :: ' ' :: ']' :: rest => countGlyphMatches rest + 1
  | c :: rest =>
    if c = '☐' || c = '□' then countGlyphMatches rest + 1 else countGlyphMatches rest

/-- State machine equivalent of non-overlapping `re.findall` of
`Yes.*?No` (case-sensitive, `.` not matching `'\n'`): the flag records
whether an unconsumed `Yes` has been seen on the current line; hitting a
`No` with the flag set completes one match and resets the flag. -/
def cyn : Bool → List Char → Nat
  | _, [] => 0
  | _, 'Y' :: 'e' :: 's' :: rest => cyn true rest
  | sawYes, 'N' :: 'o' :: rest => (if sawYes then 1 else 0) + cyn false rest
  | _, '\n' :: rest => cyn false rest
  | sawYes, _ :: rest => cyn sawYes rest

def countYesNoMatches (s : List Char) : Nat := cyn false s

/-- The `enumerate(matches[:10])` loop body (lines 537-542): descriptors
`checkbox_1 .. checkbox_n` of the given type, `required := false`. -/
def numberedFields (ftype : String) (n : Nat) : List Field :=
  (List.range n).map fun i =>
    { name := "checkbox_" ++ toString (i + 1), type := ftype, required := false }

/-- The checkbox/radio heuristic (lines 529-542): each of the two patterns
is capped at 10 matches separately. -/
def checkboxFields (text : List Char) : List Field :=
  numberedFields "checkbox" (min (countGlyphMatches text) 10)
    ++ numberedFields "radio" (min (countYesNoMatches text) 10)

/-- `parse_pdf_text_for_fields` (lines 498-544): the label-phrase
descriptors followed by the capped checkbox/radio descriptors. -/
def parse_pdf_text_for_fields (text : List Char) : List Field :=
  patternFields text ++ checkboxFields text

/-! ### The coordinator `extract_pdf_form_fields` -/

/-- The concatenation built by methods 1-3 (lines 349-366); method 3 runs
only when `PDFFORM_AVAILABLE` (line 362). -/
def methods123 (avail : Bool) (doc : PdfDoc) : List Field :=
  extract_pdf_form_fields_pypdf2 doc
    ++ extract_pdf_form_fields_mupdf doc
    ++ (if avail then extract_pdf_form_fields_pdfform doc else [])

/-- The `fields` list after line 379: the fallback branch (lines 368-379)
runs only when `not fields`; a pdfplumber exception inside it is caught by
the outer handler (line 381) before `fields.extend`, leaving `fields`
unchanged (empty). -/
def mergedFields (avail : Bool) (doc : PdfDoc) : List Field :=
  if (methods123 avail doc).isEmpty then
    methods123 avail doc
      ++ (if doc.plumberFails then [] else parse_pdf_text_for_fields doc.text)
  else methods123 avail doc

/-- The dedup key at line 395: `f"{name}_{type}"`, compared as a string. -/
def fieldKey (f : Field) : List Char := f.name.data ++ '_' :: f.type.data

/-- The dedup loop (lines 392-398): keep a field iff its key has not been
seen; record each kept key. -/
def dedupAux : List (List Char) → List Field → List Field
  | _, [] => []
  | seen, f :: rest =>
    if fieldKey f ∈ seen then dedupAux seen rest
    else f :: dedupAux (fieldKey f :: seen) rest

def dedupFields (fields : List Field) : List Field := dedupAux [] fields

/-- Externally observable effects of one extraction call. -/
inductive Action where
  | extractText
  | unlink
deriving DecidableEq

/-- `Path(pdf_path).unlink()` in the `finally` block: one deletion attempt,
raising iff the deletion fails. -/
def unlinkCall (unlinkFails : Bool) : List Action × Bool := ([Action.unlink], unlinkFails)

/-- The `try ... except Exception: pass` around the deletion (386-389):
same attempts, exception swallowed. -/
def swallowExc (r : List Action × Bool) : List Action × Bool := (r.1, false)

/-- The whole `finally` block (lines 384-389). -/
def tryUnlink (unlinkFails : Bool) : List Action × Bool := swallowExc (unlinkCall unlinkFails)

structure ExtractResult where
  fields : List Field
  actions : List Action
  raised : Bool
deriving DecidableEq

/-- `extract_pdf_form_fields` (lines 344-400): run methods 1-3, run the
text fallback iff they produced nothing (recording the pdfplumber read as
an effect), catch every body exception (line 381), always run the
`finally` deletion, and return the deduplicated list.  The body handler
catches every exception, so only the `finally` block could re-raise. -/
def extract_pdf_form_fields (avail : Bool) (doc : PdfDoc) (unlinkFails : Bool) :
    ExtractResult :=
  let cleanup := tryUnlink unlinkFails
  { fields := dedupFields (mergedFields avail doc)
    actions :=
      (if (methods123 avail doc).isEmpty then [Action.extractText] else []) ++ cleanup.1
    raised := cleanup.2 }

/-- The (name, type) pair the deduplication is specified over. -/
def samePair (a b : Field) : Prop := a.name = b.name ∧ a.type = b.type

instance (a b : Field) : Decidable (samePair a b) := by
  unfold samePair; infer_instance

/-! ### Concrete documents used to instantiate the theorems -/

/-- A PDF with no form dictionary, no widget annotations, nothing
discoverable by the optional library, and empty page text. -/
def emptyDoc : PdfDoc :=
  { acroFields := none, pages := [], pdfformNames := [], text := []
    pypdf2Fails := false, mupdfFails := false, pdfformFails := false
    plumberFails := false }

/-- A small form dictionary exercising the three shapes of the `/Ff`
attribute: bit 2 set, bit 2 clear, attribute absent. -/
def c4entries : List PdfFieldEntry :=
  [ ⟨some "a", some "/Tx", some 2⟩,
    ⟨some "b", some "/Tx", some 1⟩,
    ⟨some "c", some "/Ch", none⟩ ]

def c4doc : PdfDoc :=
  { acroFields := some c4entries, pages := [], pdfformNames := [], text := []
    pypdf2Fails := false, mupdfFails := false, pdfformFails := false
    plumberFails := false }

/-- The document of the spec scenario: form dictionary with exactly
`{T:"ssn", FT:"/Tx", Ff:2}` and `{T:"signature", FT:"/Sig"}`. -/
def c5doc : PdfDoc :=
  { acroFields :=
      some [⟨some "ssn", some "/Tx", some 2⟩, ⟨some "signature", some "/Sig", none⟩]
    pages := [], pdfformNames := [], text := []
    pypdf2Fails := false, mupdfFails := false, pdfformFails := false
    plumberFails := false }

/-- The document of the scanned-PDF scenario: no embedded form, extracted
text "First Name:\nDate of Birth:". -/
def c7doc : PdfDoc :=
  { acroFields := none, pages := [], pdfformNames := []
    text := "First Name:\nDate of Birth:".data
    pypdf2Fails := false, mupdfFails := false, pdfformFails := false
    plumberFails := false }

/-- A document on which every underlying reader raises. -/
def allFailDoc : PdfDoc :=
  { acroFields := some [⟨some "x", some "/Tx", some 2⟩]
    pages := [[⟨some "y", WidgetType.text, 2⟩]]
    pdfformNames := ["z"], text := "First Name:".data
    pypdf2Fails := true, mupdfFails := true, pdfformFails := true
    plumberFails := true }

/-- The "First Name" row of the fixed table. -/
def firstNameRow : PatternRow := ⟨.one "first name".data, "first_name", "text", true⟩

/-! ### Helper lemmas -/

theorem stringDataInj {a b : String} (h : a.data = b.data) : a = b := by
  cases a with
  | mk la => cases b with
    | mk lb => simp only at h; rw [h]

theorem checkboxPrefixHead (s : String) : ("checkbox_" ++ s).data.head? = some 'c' := by
  cases s; rfl

theorem dedupAux_not_seen {seen : List (List Char)} {l : List Field} {f : Field}
    (h : f ∈ dedupAux seen l) : fieldKey f ∉ seen := by
  induction l generalizing seen with
  | nil => simp [dedupAux] at h
  | cons g rest ih =>
    rw [dedupAux] at h
    by_cases hg : fieldKey g ∈ seen
    · rw [if_pos hg] at h
      exact ih h
    · rw [if_neg hg] at h
      rcases List.mem_cons.mp h with rfl | h2
      · exact hg
      · intro hc
        exact ih h2 (List.mem_cons_of_mem _ hc)

theorem mem_dedupAux {seen : List (List Char)} {l : List Field} {f : Field} :
    f ∈ dedupAux seen l ↔
      fieldKey f ∉ seen ∧ l.find? (fun g => fieldKey g == fieldKey f) = some f := by
  induction l generalizing seen with
  | nil => simp [dedupAux]
  | cons g rest ih =>
    rw [dedupAux]
    by_cases hk : fieldKey g = fieldKey f
    · rw [List.find?_cons_of_pos _ (by simpa using hk)]
      by_cases hg : fieldKey g ∈ seen
      · rw [if_pos hg]
        constructor
        · intro h
          exact absurd (hk ▸ hg) (dedupAux_not_seen h)
        · rintro ⟨hns, hgf⟩
          exact absurd (hk ▸ hg) hns
      · rw [if_neg hg]
        constructor
        · intro h
          rcases List.mem_cons.mp h with rfl | h2
          · exact ⟨hk ▸ hg, rfl⟩
          · have hns := dedupAux_not_seen h2
            exact absurd (List.mem_cons.mpr (Or.inl hk.symm)) hns
        · rintro ⟨hns, heq⟩
          have hgf : g = f := by injection heq
          cases hgf
          exact List.mem_cons_self _ _
    · rw [List.find?_cons_of_neg _ (by simpa using hk)]
      by_cases hg : fieldKey g ∈ seen
      · rw [if_pos hg]
        exact ih
      · rw [if_neg hg]
        constructor
        · intro h
          rcases List.mem_cons.mp h with rfl | h2
          · exact absurd rfl hk
          · have h3 := ih.mp h2
            exact ⟨fun hc => h3.1 (List.mem_cons_of_mem _ hc), h3.2⟩
        · rintro ⟨hns, hfind⟩
          refine List.mem_cons_of_mem _ (ih.mpr ⟨?_, hfind⟩)
          intro hc
          rcases List.mem_cons.mp hc with hc1 | hc2
          · exact hk hc1.symm
          · exact hns hc2

theorem dedupAux_pairwise_keys (seen : List (List Char)) (l : List Field) :
    (dedupAux seen l).Pairwise fun a b => fieldKey a ≠ fieldKey b := by
  induction l generalizing seen with
  | nil => simp [dedupAux]
  | cons g rest ih =>
    rw [dedupAux]
    by_cases hg : fieldKey g ∈ seen
    · rw [if_pos hg]
      exact ih seen
    · rw [if_neg hg]
      refine List.Pairwise.cons ?_ (ih _)
      intro b hb hc
      exact dedupAux_not_seen hb (List.mem_cons.mpr (Or.inl hc.symm))

theorem append_underscore_inj {n1 t1 n2 t2 : List Char}
    (h1 : '_' ∉ t1) (h2 : '_' ∉ t2)
    (h : n1 ++ '_' :: t1 = n2 ++ '_' :: t2) : n1 = n2 ∧ t1 = t2 := by
  induction n1 generalizing n2 with
  | nil =>
    cases n2 with
    | nil => simpa using h
    | cons c m =>
      simp only [List.nil_append, List.cons_append, List.cons.injEq] at h
      exfalso
      apply h1
      rw [h.2]
      exact List.mem_append_right m (List.mem_cons_self '_' t2)
  | cons c m ih =>
    cases n2 with
    | nil =>
      simp only [List.nil_append, List.cons_append, List.cons.injEq] at h
      exfalso
      apply h2
      rw [← h.2]
      exact List.mem_append_right m (List.mem_cons_self '_' t1)
    | cons d m2 =>
      simp only [List.cons_append, List.cons.injEq] at h
      obtain ⟨rfl, h2x⟩ := h
      obtain ⟨rfl, rfl⟩ := ih h2x
      exact ⟨rfl, rfl⟩

theorem fieldKey_inj {a b : Field} (ha : '_' ∉ a.type.data) (hb : '_' ∉ b.type.data) :
    fieldKey a = fieldKey b ↔ samePair a b := by
  constructor
  · intro h
    obtain ⟨hn, ht⟩ := append_underscore_inj ha hb h
    exact ⟨stringDataInj hn, stringDataInj ht⟩
  · rintro ⟨hn, ht⟩
    unfold fieldKey
    rw [hn, ht]

theorem pypdf2TypeMapping_noUnderscore (ft : String) :
    '_' ∉ (pypdf2TypeMapping ft).data := by
  unfold pypdf2TypeMapping
  split <;> decide

theorem mupdfTypeMapping_noUnderscore (wt : WidgetType) :
    '_' ∉ (mupdfTypeMapping wt).data := by
  cases wt <;> decide

theorem pypdf2_type_noUnderscore {f : Field} {doc : PdfDoc}
    (h : f ∈ extract_pdf_form_fields_pypdf2 doc) : '_' ∉ f.type.data := by
  unfold extract_pdf_form_fields_pypdf2 at h
  split at h
  · simp at h
  · split at h
    · simp at h
    · obtain ⟨e, he, rfl⟩ := List.mem_map.mp h
      exact pypdf2TypeMapping_noUnderscore _

theorem mupdfWidgetFields_type_noUnderscore {f : Field} {idx : Nat} {ws : List Widget}
    (h : f ∈ mupdfWidgetFields idx ws) : '_' ∉ f.type.data := by
  induction ws generalizing idx with
  | nil => simp [mupdfWidgetFields] at h
  | cons w rest ih =>
    rw [mupdfWidgetFields] at h
    rcases List.mem_cons.mp h with rfl | h2
    · exact mupdfTypeMapping_noUnderscore w.field_type
    · exact ih h2

theorem mupdf_type_noUnderscore {f : Field} {doc : PdfDoc}
    (h : f ∈ extract_pdf_form_fields_mupdf doc) : '_' ∉ f.type.data := by
  unfold extract_pdf_form_fields_mupdf at h
  split at h
  · simp at h
  · exact mupdfWidgetFields_type_noUnderscore h

theorem pdfform_type_noUnderscore {f : Field} {doc : PdfDoc}
    (h : f ∈ extract_pdf_form_fields_pdfform doc) : '_' ∉ f.type.data := by
  unfold extract_pdf_form_fields_pdfform at h
  split at h
  · simp at h
  · obtain ⟨n, hn, rfl⟩ := List.mem_map.mp h
    show '_' ∉ "text".data
    decide

theorem fieldPatterns_type_noUnderscore : ∀ r ∈ fieldPatterns, '_' ∉ r.type.data := by
  decide

theorem patternFields_type_noUnderscore {f : Field} {text : List Char}
    (h : f ∈ patternFields text) : '_' ∉ f.type.data := by
  unfold patternFields at h
  obtain ⟨r, hr, rfl⟩ := List.mem_map.mp h
  exact fieldPatterns_type_noUnderscore r (List.mem_of_mem_filter hr)

theorem numberedFields_shape {f : Field} {t : String} {n : Nat}
    (h : f ∈ numberedFields t n) :
    f.type = t ∧ ∃ s : String, f.name = "checkbox_" ++ s := by
  unfold numberedFields at h
  obtain ⟨i, hi, rfl⟩ := List.mem_map.mp h
  exact ⟨rfl, toString (i + 1), rfl⟩

theorem checkboxFields_type_noUnderscore {f : Field} {text : List Char}
    (h : f ∈ checkboxFields text) : '_' ∉ f.type.data := by
  unfold checkboxFields at h
  rcases List.mem_append.mp h with h1 | h1
  · rw [(numberedFields_shape h1).1]
    decide
  · rw [(numberedFields_shape h1).1]
    decide

theorem methods123_type_noUnderscore {avail : Bool} {doc : PdfDoc} :
    ∀ g ∈ methods123 avail doc, '_' ∉ g.type.data := by
  intro g hg
  unfold methods123 at hg
  rcases List.mem_append.mp hg with hg1 | hg2
  · rcases List.mem_append.mp hg1 with hga | hgb
    · exact pypdf2_type_noUnderscore hga
    · exact mupdf_type_noUnderscore hgb
  · split at hg2
    · exact pdfform_type_noUnderscore hg2
    · simp at hg2

theorem mergedFields_type_noUnderscore (avail : Bool) (doc : PdfDoc) :
    ∀ f ∈ mergedFields avail doc, '_' ∉ f.type.data := by
  intro f h
  unfold mergedFields at h
  split at h
  · rcases List.mem_append.mp h with h1 | h1
    · exact methods123_type_noUnderscore f h1
    · split at h1
      · simp at h1
      · unfold parse_pdf_text_for_fields at h1
        rcases List.mem_append.mp h1 with h2 | h2
        · exact patternFields_type_noUnderscore h2
        · exact checkboxFields_type_noUnderscore h2
  · exact methods123_type_noUnderscore f h

theorem find_agree {l : List Field} {p q : Field → Bool} (h : ∀ x ∈ l, p x = q x) :
    l.find? p = l.find? q := by
  induction l with
  | nil => rfl
  | cons a t ih =>
    have ha := h a (List.mem_cons_self a t)
    by_cases hq : q a = true
    · rw [List.find?_cons_of_pos _ (ha ▸ hq), List.find?_cons_of_pos _ hq]
    · have hpa : ¬ p a = true := by rw [ha]; exact hq
      rw [List.find?_cons_of_neg _ hpa, List.find?_cons_of_neg _ hq]
      exact ih fun x hx => h x (List.mem_cons_of_mem a hx)

theorem find_isSome_of_mem {l : List Field} {p : Field → Bool} {g : Field}
    (hg : g ∈ l) (hp : p g = true) : ∃ f, l.find? p = some f := by
  induction l with
  | nil => cases hg
  | cons a t ih =>
    by_cases hpa : p a = true
    · exact ⟨a, List.find?_cons_of_pos _ hpa⟩
    · rcases List.mem_cons.mp hg with rfl | h2
      · exact absurd hp hpa
      · obtain ⟨f, hf⟩ := ih h2
        exact ⟨f, by rw [List.find?_cons_of_neg _ hpa]; exact hf⟩

theorem countP_name_rows (rows : List PatternRow) (q : PatternRow → Bool)
    (r : PatternRow) (hnd : (rows.map fun s => s.name).Nodup) (hr : r ∈ rows) :
    rows.countP (fun s => (s.name == r.name) && q s) = if q r then 1 else 0 := by
  induction rows with
  | nil => cases hr
  | cons s rest ih =>
    rw [List.countP_cons]
    rw [List.map_cons, List.nodup_cons] at hnd
    rcases List.mem_cons.mp hr with rfl | hr2
    · have hz : rest.countP (fun x => (x.name == r.name) && q x) = 0 := by
        rw [List.countP_eq_zero]
        intro x hx
        simp only [Bool.and_eq_true, beq_iff_eq, not_and]
        intro hxr hq
        exact hnd.1 (hxr ▸ List.mem_map_of_mem (fun s => s.name) hx)
      rw [hz]
      simp
    · have hs : s.name ≠ r.name := by
        intro hc
        exact hnd.1 (hc ▸ List.mem_map_of_mem (fun s => s.name) hr2)
      rw [ih hnd.2 hr2]
      simp [hs]

theorem fieldPatterns_names_nodup : (fieldPatterns.map fun s => s.name).Nodup := by
  decide

theorem fieldPatterns_name_head : ∀ r ∈ fieldPatterns, r.name.data.head? ≠ some 'c' := by
  decide

theorem checkboxFields_name_countP (text : List Char) (nm : String)
    (h : nm.data.head? ≠ some 'c') :
    (checkboxFields text).countP (fun f => f.name == nm) = 0 := by
  rw [List.countP_eq_zero]
  intro f hf
  have hname : ∃ s : String, f.name = "checkbox_" ++ s := by
    unfold checkboxFields at hf
    rcases List.mem_append.mp hf with h1 | h1
    · exact (numberedFields_shape h1).2
    · exact (numberedFields_shape h1).2
  obtain ⟨s, hs⟩ := hname
  simp only [beq_iff_eq, hs]
  intro hc
  apply h
  rw [← hc]
  exact checkboxPrefixHead s

/-! ### Claim theorems -/

/-- C1: for every input PDF the returned list contains no two descriptors
with the same (name, type) pair; each returned descriptor is literally the
first descriptor produced with its pair in method execution order (so its
label and required values are those of the earliest method), and every
produced (name, type) pair survives deduplication. -/
theorem C1_dedup_by_name_type_pair (avail : Bool) (doc : PdfDoc) (uf : Bool) :
    ((extract_pdf_form_fields avail doc uf).fields.Pairwise fun a b => ¬ samePair a b)
    ∧ (∀ f ∈ (extract_pdf_form_fields avail doc uf).fields,
        (mergedFields avail doc).find?
          (fun g => g.name == f.name && g.type == f.type) = some f)
    ∧ (∀ g ∈ mergedFields avail doc,
        ∃ f ∈ (extract_pdf_form_fields avail doc uf).fields, samePair f g) := by
  have hext : (extract_pdf_form_fields avail doc uf).fields
      = dedupFields (mergedFields avail doc) := rfl
  have hnu := mergedFields_type_noUnderscore avail doc
  rw [hext]
  refine ⟨?_, ?_, ?_⟩
  · refine (dedupAux_pairwise_keys [] _).imp ?_
    intro a b hne hsp
    apply hne
    unfold fieldKey
    rw [hsp.1, hsp.2]
  · intro f hf
    have hmem := mem_dedupAux.mp hf
    have hfm : f ∈ mergedFields avail doc := List.mem_of_find?_eq_some hmem.2
    rw [← hmem.2]
    apply find_agree
    intro x hx
    have hiff := fieldKey_inj (hnu x hx) (hnu f hfm)
    rw [Bool.eq_iff_iff]
    simp only [Bool.and_eq_true, beq_iff_eq]
    exact hiff.symm
  · intro g hg
    obtain ⟨f0, hf0⟩ :=
      find_isSome_of_mem (p := fun x => fieldKey x == fieldKey g) hg (by simp)
    have hkey : fieldKey f0 = fieldKey g := by
      have := List.find?_some hf0
      simpa using this
    have hf0mem : f0 ∈ mergedFields avail doc := List.mem_of_find?_eq_some hf0
    refine ⟨f0, ?_, (fieldKey_inj (hnu f0 hf0mem) (hnu g hg)).mp hkey⟩
    apply mem_dedupAux.mpr
    refine ⟨List.not_mem_nil _, ?_⟩
    rw [show (fun x => fieldKey x == fieldKey f0) = (fun x => fieldKey x == fieldKey g)
        from by funext x; rw [hkey]]
    exact hf0

/-- C1 witness: the property instantiated at the two-field scenario
document. -/
theorem C1_witness :
    ((extract_pdf_form_fields true c5doc false).fields.Pairwise fun a b => ¬ samePair a b)
    ∧ (∀ f ∈ (extract_pdf_form_fields true c5doc false).fields,
        (mergedFields true c5doc).find?
          (fun g => g.name == f.name && g.type == f.type) = some f)
    ∧ (∀ g ∈ mergedFields true c5doc,
        ∃ f ∈ (extract_pdf_form_fields true c5doc false).fields, samePair f g) :=
  C1_dedup_by_name_type_pair true c5doc false

/-- C2: the pdfplumber text fallback (method 4) executes if and only if
methods 1-3 produced an empty merged list; and a PDF with no form
dictionary, no widget annotations (and hence nothing discoverable by the
optional structured-field library) makes methods 1-3 contribute zero
fields, so the fallback runs. -/
theorem C2_fallback_iff_no_structured_fields (avail : Bool) (doc : PdfDoc) (uf : Bool)
    (h1 : doc.acroFields = none) (h2 : ∀ p ∈ doc.pages, p = [])
    (h3 : doc.pdfformNames = []) :
    methods123 avail doc = []
    ∧ Action.extractText ∈ (extract_pdf_form_fields avail doc uf).actions
    ∧ (∀ d : PdfDoc, Action.extractText ∈ (extract_pdf_form_fields avail d uf).actions
        ↔ methods123 avail d = []) := by
  have hiff : ∀ d : PdfDoc,
      Action.extractText ∈ (extract_pdf_form_fields avail d uf).actions
        ↔ methods123 avail d = [] := by
    intro d
    have hact : (extract_pdf_form_fields avail d uf).actions
        = (if (methods123 avail d).isEmpty then [Action.extractText] else [])
            ++ [Action.unlink] := rfl
    rw [hact]
    constructor
    · intro hmem
      rcases List.mem_append.mp hmem with hA | hB
      · by_cases hd : (methods123 avail d).isEmpty = true
        · exact List.isEmpty_iff.mp hd
        · rw [if_neg hd] at hA
          exact absurd hA (List.not_mem_nil _)
      · exact absurd (List.mem_singleton.mp hB) (by decide)
    · intro hd
      apply List.mem_append.mpr
      left
      rw [if_pos (by rw [hd]; rfl)]
      exact List.mem_cons_self _ _
  have hflat : doc.pages.flatten = [] := List.flatten_eq_nil_iff.mpr h2
  have hm : methods123 avail doc = [] := by
    unfold methods123 extract_pdf_form_fields_pypdf2 extract_pdf_form_fields_mupdf
      extract_pdf_form_fields_pdfform
    rw [h1, h3, hflat]
    cases doc.pypdf2Fails <;> cases doc.mupdfFails <;> cases doc.pdfformFails
      <;> cases avail <;> simp [mupdfWidgetFields]
  exact ⟨hm, (hiff doc).mpr hm, hiff⟩

/-- C2 witness: instantiated at a document with no form dictionary and no
widgets. -/
theorem C2_witness :
    methods123 true emptyDoc = []
    ∧ Action.extractText ∈ (extract_pdf_form_fields true emptyDoc false).actions
    ∧ (∀ d : PdfDoc, Action.extractText ∈ (extract_pdf_form_fields true d false).actions
        ↔ methods123 true d = []) :=
  C2_fallback_iff_no_structured_fields true emptyDoc false rfl
    (by intro p hp; exact absurd hp (List.not_mem_nil p)) rfl

/-- C3 counterexample: a text with ten checkbox glyphs and one "Yes…No"
occurrence makes the fallback emit eleven synthetic checkbox/radio
descriptors, because each of the two patterns is capped at 10 separately. -/
theorem C3_counterexample :
    10 < (parse_pdf_text_for_fields "☐☐☐☐☐☐☐☐☐☐YesNo".data).length
    ∧ (∀ f ∈ parse_pdf_text_for_fields "☐☐☐☐☐☐☐☐☐☐YesNo".data,
        f.type = "checkbox" ∨ f.type = "radio") := by
  decide

/-- C3 amended: the checkbox/radio heuristic caps each of its two
patterns at 10 synthetic descriptors separately, hence emits at most 10
checkbox-glyph descriptors, at most 10 Yes/No radio descriptors, and at
most 20 synthetic descriptors in total (not 10 in total). -/
theorem C3_cap_per_pattern (text : List Char) :
    (numberedFields "checkbox" (min (countGlyphMatches text) 10)).length ≤ 10
    ∧ (numberedFields "radio" (min (countYesNoMatches text) 10)).length ≤ 10
    ∧ (checkboxFields text).length ≤ 20 := by
  have hlen : ∀ (t : String) (n : Nat), (numberedFields t n).length = n := by
    intro t n
    unfold numberedFields
    rw [List.length_map, List.length_range]
  refine ⟨?_, ?_, ?_⟩
  · rw [hlen]
    exact Nat.min_le_right _ _
  · rw [hlen]
    exact Nat.min_le_right _ _
  · unfold checkboxFields
    rw [List.length_append, hlen, hlen]
    have hg := Nat.min_le_right (countGlyphMatches text) 10
    have hy := Nat.min_le_right (countYesNoMatches text) 10
    omega

/-- C4: with a well-formed form dictionary, method 1 maps each entry, and
an entry yields `required = true` exactly when its `/Ff` attribute is
present with the value-2 bit set (absent attribute or clear bit give
`required = false`); method 2 likewise tests the value-2 bit of the
widget's `field_flags`. -/
theorem C4_required_bit (doc : PdfDoc) (entries : List PdfFieldEntry)
    (h1 : doc.acroFields = some entries) (h2 : doc.pypdf2Fails = false) :
    extract_pdf_form_fields_pypdf2 doc = entries.map pypdf2Field
    ∧ (∀ e ∈ entries, ((pypdf2Field e).required = true ↔
        ∃ ff, e.Ff = some ff ∧ ff.testBit 1 = true))
    ∧ (∀ (idx : Nat) (w : Widget),
        ((mupdfField idx w).required = true ↔ w.field_flags.testBit 1 = true)) := by
  have hbit : ∀ ff : Nat, (ff &&& 2 != 0) = ff.testBit 1 := by
    intro ff
    have h := Nat.and_two_pow ff 1
    norm_num at h
    cases htb : ff.testBit 1 <;> rw [htb] at h <;> simp [h]
  refine ⟨?_, ?_, ?_⟩
  · unfold extract_pdf_form_fields_pypdf2
    rw [h2, h1]
    simp
  · intro e he
    show (match e.Ff with | none => false | some ff => ff &&& 2 != 0) = true ↔ _
    cases hFf : e.Ff with
    | none => simp
    | some ff =>
      change (ff &&& 2 != 0) = true ↔ _
      rw [hbit ff]
      constructor
      · intro h
        exact ⟨ff, rfl, h⟩
      · rintro ⟨ff2, hf2, hb⟩
        injection hf2 with hf2
        rw [hf2]
        exact hb
  · intro idx w
    show (w.field_flags &&& 2 != 0) = true ↔ _
    rw [hbit]

/-- C4 witness: instantiated at a form dictionary with the three `/Ff`
shapes (bit set, bit clear, attribute absent). -/
theorem C4_witness :
    extract_pdf_form_fields_pypdf2 c4doc = c4entries.map pypdf2Field
    ∧ (∀ e ∈ c4entries, ((pypdf2Field e).required = true ↔
        ∃ ff, e.Ff = some ff ∧ ff.testBit 1 = true))
    ∧ (∀ (idx : Nat) (w : Widget),
        ((mupdfField idx w).required = true ↔ w.field_flags.testBit 1 = true)) :=
  C4_required_bit c4doc c4entries rfl rfl

/-- C5: on the scenario document whose form dictionary holds exactly
`{T:"ssn", FT:"/Tx", Ff:2}` and `{T:"signature", FT:"/Sig"}`, extraction
returns exactly the two expected descriptors in order, through the fixed
type table `/Tx`→text, `/Ch`→select, `/Btn`→checkbox, `/Sig`→signature. -/
theorem C5_scenario_ssn_signature (avail : Bool) (uf : Bool) :
    (extract_pdf_form_fields avail c5doc uf).fields =
      [{ name := "ssn", type := "text", required := true },
       { name := "signature", type := "signature", required := false }]
    ∧ pypdf2TypeMapping "/Tx" = "text" ∧ pypdf2TypeMapping "/Ch" = "select"
    ∧ pypdf2TypeMapping "/Btn" = "checkbox" ∧ pypdf2TypeMapping "/Sig" = "signature" := by
  cases avail <;> exact ⟨rfl, rfl, rfl, rfl, rfl⟩

/-- C6 counterexample: "first name" occurs (case-insensitively) in the
text "First Name", yet the fallback contributes no descriptor at all: the
compiled pattern additionally requires a colon later on the same line. -/
theorem C6_counterexample :
    "first name".data <:+: lowerStr "First Name".data
    ∧ parse_pdf_text_for_fields "First Name".data = [] := by
  decide

/-- C6 amended: for each row of the fixed table, the fallback contribution
contains exactly one descriptor with that row's name when the row's
pattern — the phrase followed later on the same line by a colon — matches
the lowercased text, and zero otherwise; never one per occurrence. -/
theorem C6_phrase_at_most_once (text : List Char) (r : PatternRow)
    (hr : r ∈ fieldPatterns) :
    (parse_pdf_text_for_fields text).countP (fun f => f.name == r.name)
      = if patMatch r.pat (lowerStr text) then 1 else 0 := by
  unfold parse_pdf_text_for_fields
  rw [List.countP_append,
    checkboxFields_name_countP text r.name (fieldPatterns_name_head r hr)]
  unfold patternFields
  rw [List.countP_map]
  have hcomp : ((fun f : Field => f.name == r.name) ∘ rowField)
      = fun s : PatternRow => s.name == r.name := rfl
  rw [hcomp, List.countP_filter,
    countP_name_rows fieldPatterns (fun s => patMatch s.pat (lowerStr text)) r
      fieldPatterns_names_nodup hr]
  omega

/-- C6 witness: a text with two occurrences of "First Name:" yields
exactly one first_name descriptor. -/
theorem C6_witness :
    (parse_pdf_text_for_fields "First Name: x First Name: y".data).countP
      (fun f => f.name == firstNameRow.name) = 1 := by
  have h := C6_phrase_at_most_once "First Name: x First Name: y".data firstNameRow
    (by decide)
  rw [h]
  decide

/-- C7 counterexample: on the scanned-PDF scenario document, a third
descriptor arising from the phrase "Date of Birth:" — the generic date
row — is also returned. -/
theorem C7_counterexample :
    ({ name := "date", type := "date", required := false } : Field)
        ∈ (extract_pdf_form_fields true c7doc false).fields
    ∧ ({ name := "date", type := "date", required := false } : Field)
        ∉ [({ name := "first_name", type := "text", required := true } : Field),
           { name := "date_of_birth", type := "date", required := true }] := by
  decide

/-- C7 amended: the output is exactly the two expected descriptors plus
the generic `date` descriptor, produced because the "Date…:" row of the
table also matches inside "Date of Birth:". -/
theorem C7_scenario_with_generic_date (avail : Bool) (uf : Bool) :
    (extract_pdf_form_fields avail c7doc uf).fields =
      [{ name := "first_name", type := "text", required := true },
       { name := "date_of_birth", type := "date", required := true },
       { name := "date", type := "date", required := false }] := by
  cases avail <;> rfl

/-- C8: the extractor never raises towards its caller (so "no fields
found" yields the empty list, never an exception); each failing method is
caught with a zero-field contribution, a document unreadable by every
reader yields the empty list with no exception, and the result is always
the merge of the per-method contributions, each computed from its own
reader alone. -/
theorem C8_no_throw_method_isolation (avail : Bool) (doc : PdfDoc) (uf : Bool) :
    (extract_pdf_form_fields avail doc uf).raised = false
    ∧ (doc.pypdf2Fails = true → extract_pdf_form_fields_pypdf2 doc = [])
    ∧ (doc.mupdfFails = true → extract_pdf_form_fields_mupdf doc = [])
    ∧ (doc.pdfformFails = true → extract_pdf_form_fields_pdfform doc = [])
    ∧ (doc.plumberFails = true → methods123 avail doc = [] →
        (extract_pdf_form_fields avail doc uf).fields = [])
    ∧ (extract_pdf_form_fields avail doc uf).fields
        = dedupFields (mergedFields avail doc) := by
  refine ⟨rfl, ?_, ?_, ?_, ?_, rfl⟩
  · intro h
    unfold extract_pdf_form_fields_pypdf2
    rw [h]
    rfl
  · intro h
    unfold extract_pdf_form_fields_mupdf
    rw [h]
    rfl
  · intro h
    unfold extract_pdf_form_fields_pdfform
    rw [h]
    rfl
  · intro hp hm
    show dedupFields (mergedFields avail doc) = []
    unfold mergedFields
    rw [hm, hp]
    rfl

/-- C8 witness: a document on which every reader raises yields the empty
list with no exception. -/
theorem C8_witness :
    (extract_pdf_form_fields true allFailDoc true).raised = false
    ∧ extract_pdf_form_fields_pypdf2 allFailDoc = []
    ∧ extract_pdf_form_fields_mupdf allFailDoc = []
    ∧ extract_pdf_form_fields_pdfform allFailDoc = []
    ∧ (extract_pdf_form_fields true allFailDoc true).fields = [] := by
  obtain ⟨h1, h2, h3, h4, h5, h6⟩ := C8_no_throw_method_isolation true allFailDoc true
  exact ⟨h1, h2 rfl, h3 rfl, h4 rfl, h5 rfl (by decide)⟩

/-- C9: on every execution path — fields found, no fields found, every
reader failing — exactly one deletion of the temporary file is attempted,
and a failing deletion is swallowed, never propagated. -/
theorem C9_unlink_once_swallowed (avail : Bool) (doc : PdfDoc) (uf : Bool) :
    (extract_pdf_form_fields avail doc uf).actions.count Action.unlink = 1
    ∧ (extract_pdf_form_fields avail doc uf).raised = false := by
  refine ⟨?_, rfl⟩
  have hact : (extract_pdf_form_fields avail doc uf).actions
      = (if (methods123 avail doc).isEmpty then [Action.extractText] else [])
          ++ [Action.unlink] := rfl
  rw [hact]
  by_cases hd : (methods123 avail doc).isEmpty = true
  · rw [if_pos hd]
    decide
  · rw [if_neg hd]
    decide

/-- C10: the dedup key is the string concatenation name ++ "_" ++ type,
so two descriptors with distinct (name, type) pairs — ("a_b", "c") and
("a", "b_c") — share one key and the dedup loop silently drops the later
one. -/
theorem C10_key_concatenation_collision :
    fieldKey { name := "a_b", type := "c", required := false }
      = fieldKey { name := "a", type := "b_c", required := false }
    ∧ ¬ samePair { name := "a_b", type := "c", required := false }
        { name := "a", type := "b_c", required := false }
    ∧ dedupFields
        [{ name := "a_b", type := "c", required := false },
         { name := "a", type := "b_c", required := false }]
      = [{ name := "a_b", type := "c", required := false }] := by
  decide

end VAForms
